import Mathlib

/-!
# Verification of the arb-program core

Shallow embedding of the arbitrage program's core (error taxonomy,
constant-product swap output calculation, binary record decoding, the
pairwise arbitrage scan, trade-payload construction and the two-leg
dispatch sequencing), with theorems settling the specification claims.

Modelling conventions:
* `u64` / `u8` integers are `Nat` (overflow points are noted where they
  matter; the decoded quantities are bounded by construction).
* The Rust `f32` / `f64` floating-point arithmetic used by
  `convert_to_float` / `convert_from_float` / `check_for_arbitrage` is
  modelled as exact rational arithmetic (`ℚ`).  Every property proved
  below about these functions concerns the branch and direction
  structure of the computation, which is independent of rounding,
  except where a proof's statement notes otherwise.  Rust division by
  zero on floats yields `inf`/`NaN`; Lean's `ℚ` division by zero yields
  `0`.  The spots where that corner matters are noted inline.
* `Pubkey` values (32-byte addresses) are modelled as `List Nat` byte
  lists where the claim is about raw record bytes, and as `Nat`
  stand-ins where only identity matters.
-/

/-- Error taxonomy of the program, from `error.rs`
(`enum ArbitrageProgramError`), in declaration order. -/
inductive ArbitrageProgramError
  | InvalidAccountsList
  | TokenAccountOwnerNotFound
  | InvalidSwapNotEnoughLiquidity
  | NoArbitrage
deriving DecidableEq, Repr

/-- `From<ArbitrageProgramError> for ProgramError` maps each variant to
`ProgramError::Custom(e as u32)`; this is the discriminant used there. -/
def ArbitrageProgramError.toCustomCode : ArbitrageProgramError → Nat
  | .InvalidAccountsList => 0
  | .TokenAccountOwnerNotFound => 1
  | .InvalidSwapNotEnoughLiquidity => 2
  | .NoArbitrage => 3

/-- `convert_to_float` from `swap.rs`: interprets an integer quantity at a
decimal scale, `value / 10^decimals`.  (The Rust code computes this in
`f32`; modelled exactly over `ℚ`.) -/
def convert_to_float (value : Nat) (decimals : Nat) : ℚ :=
  (value : ℚ) / 10 ^ decimals

/-- `convert_from_float` from `swap.rs`: scales a normalized value back to
an integer quantity, `value * 10^decimals` cast with Rust's `as u64`,
which truncates toward zero and saturates at the `u64` range (negative
and `NaN` inputs go to `0`; on the nonnegative rationals produced here
truncation toward zero is `Int.toNat ∘ Int.floor`). -/
def convert_from_float (value : ℚ) (decimals : Nat) : Nat :=
  min (Int.toNat ⌊value * 10 ^ decimals⌋) (2 ^ 64 - 1)

/-- `determine_swap_receive` from `swap.rs`: constant-product quote.
Normalizes the receive-pool reserve, pay-pool reserve and pay amount by
their decimal scales, computes `r = (R * p) / (P + p)`, rejects the
result with `InvalidSwapNotEnoughLiquidity` when `r > R`, and otherwise
denormalizes it back to an integer. -/
def determine_swap_receive (pool_receive_balance : Nat) (receive_decimals : Nat)
    (pool_pay_balance : Nat) (pay_decimals : Nat) (pay_amount : Nat) :
    Except ArbitrageProgramError Nat :=
  let big_r := convert_to_float pool_receive_balance receive_decimals
  let big_p := convert_to_float pool_pay_balance pay_decimals
  let p := convert_to_float pay_amount pay_decimals
  let bigr_times_p := big_r * p
  let bigp_plus_p := big_p + p
  let r := bigr_times_p / bigp_plus_p
  if r > big_r then .error .InvalidSwapNotEnoughLiquidity
  else .ok (convert_from_float r receive_decimals)

/-- The two trade directions of `enum Buy` in `arb.rs`: buy on swap
pool 1 (sell on pool 2), or buy on swap pool 2 (sell on pool 1). -/
inductive Buy
  | Swap1
  | Swap2
deriving DecidableEq, Repr

/-- The percent-difference value computed inside `check_for_arbitrage`
(`arb.rs` line 227): `|r1 / r2 - 1| * 100` on the two integer quotes.
(The Rust code computes it in `f64`; modelled exactly over `ℚ`.) -/
def percent_diff (r_swap_1 r_swap_2 : Nat) : ℚ :=
  |(r_swap_1 : ℚ) / (r_swap_2 : ℚ) - 1| * 100

/-- `check_for_arbitrage` from `arb.rs`: derives `threshold =
100 - temperature`, computes the absolute percent difference of the two
quotes, and if it exceeds the threshold picks a direction by testing the
(always nonnegative) percent difference against `0`. -/
def check_for_arbitrage (r_swap_1 r_swap_2 : Nat) (temperature : Nat) :
    Option Buy :=
  let threshold : ℚ := 100 - (temperature : ℚ)
  let pd := percent_diff r_swap_1 r_swap_2
  if pd > threshold then
    if pd > 0 then some Buy.Swap1 else some Buy.Swap2
  else
    none

lemma convert_to_float_nonneg (value decimals : Nat) :
    0 ≤ convert_to_float value decimals := by
  unfold convert_to_float
  positivity

/-- The normalized constant-product output value `r = (R * p) / (P + p)`
computed inside `determine_swap_receive`. -/
def swap_receive_rat (pool_receive_balance receive_decimals
    pool_pay_balance pay_decimals pay_amount : Nat) : ℚ :=
  convert_to_float pool_receive_balance receive_decimals *
      convert_to_float pay_amount pay_decimals /
    (convert_to_float pool_pay_balance pay_decimals +
      convert_to_float pay_amount pay_decimals)

lemma swap_receive_rat_nonneg (Rb dR Pb dP p : Nat) :
    0 ≤ swap_receive_rat Rb dR Pb dP p := by
  unfold swap_receive_rat
  have h1 := convert_to_float_nonneg Rb dR
  have h2 := convert_to_float_nonneg p dP
  have h3 := convert_to_float_nonneg Pb dP
  positivity

/-- In exact arithmetic the constant-product output never exceeds the
normalized receive reserve: `(R * p) / (P + p) ≤ R` for nonnegative
inputs. -/
lemma swap_receive_rat_le (Rb dR Pb dP p : Nat) :
    swap_receive_rat Rb dR Pb dP p ≤ convert_to_float Rb dR := by
  unfold swap_receive_rat
  have hR := convert_to_float_nonneg Rb dR
  have hp := convert_to_float_nonneg p dP
  have hP := convert_to_float_nonneg Pb dP
  rcases eq_or_lt_of_le (add_nonneg hP hp) with h0 | h0
  · rw [← h0, div_zero]
    exact hR
  · rw [div_le_iff₀ h0]
    calc convert_to_float Rb dR * convert_to_float p dP
        ≤ convert_to_float Rb dR *
            (convert_to_float Pb dP + convert_to_float p dP) :=
          mul_le_mul_of_nonneg_left (le_add_of_nonneg_left hP) hR
      _ = _ := rfl

/-- In the exact-rational model `determine_swap_receive` never fails: the
liquidity guard `r > R` is unsatisfiable, and the result is the
denormalized output value. -/
lemma determine_swap_receive_eq_ok (Rb dR Pb dP p : Nat) :
    determine_swap_receive Rb dR Pb dP p =
      .ok (convert_from_float (swap_receive_rat Rb dR Pb dP p) dR) := by
  show (if convert_to_float Rb dR < swap_receive_rat Rb dR Pb dP p then
      Except.error ArbitrageProgramError.InvalidSwapNotEnoughLiquidity
    else Except.ok (convert_from_float (swap_receive_rat Rb dR Pb dP p) dR)) = _
  rw [if_neg (not_lt.mpr (swap_receive_rat_le Rb dR Pb dP p))]

/-- Evaluation form for zero-decimal assets: the integer quote is the
truncated quotient `R * p / (P + p)` (saturated at the `u64` range). -/
lemma determine_swap_receive_zero_decimals (Rb Pb p : Nat) :
    determine_swap_receive Rb 0 Pb 0 p =
      .ok (min (Rb * p / (Pb + p)) (2 ^ 64 - 1)) := by
  rw [determine_swap_receive_eq_ok]
  congr 1
  unfold convert_from_float swap_receive_rat convert_to_float
  norm_num
  rw [← Nat.cast_mul, ← Nat.cast_add, Rat.floor_natCast_div_natCast,
    ← Int.ofNat_ediv, Int.toNat_natCast]

lemma percent_diff_nonneg (r1 r2 : Nat) : 0 ≤ percent_diff r1 r2 :=
  mul_nonneg (abs_nonneg _) (by norm_num)

/-- The percent difference is zero exactly when the two quotes are equal
and nonzero.  (In the exact-rational model `r1 / 0 = 0`, so a zero
second quote gives `percent_diff = 100`, never `0`.) -/
lemma percent_diff_eq_zero_iff (r1 r2 : Nat) :
    percent_diff r1 r2 = 0 ↔ (r1 = r2 ∧ r2 ≠ 0) := by
  unfold percent_diff
  constructor
  · intro h
    have h1 : |(r1 : ℚ) / r2 - 1| = 0 := by
      rcases mul_eq_zero.mp h with h' | h'
      · exact h'
      · norm_num at h'
    have h2 : (r1 : ℚ) / r2 = 1 := by rwa [abs_eq_zero, sub_eq_zero] at h1
    by_cases hr2 : r2 = 0
    · rw [hr2] at h2
      norm_num at h2
    · have hr2q : (r2 : ℚ) ≠ 0 := Nat.cast_ne_zero.mpr hr2
      rw [div_eq_one_iff_eq hr2q] at h2
      exact ⟨Nat.cast_inj.mp h2, hr2⟩
  · rintro ⟨rfl, hr2⟩
    rw [div_self (Nat.cast_ne_zero.mpr hr2), sub_self, abs_zero, zero_mul]

/-- A quote of zero against a nonzero quote gives a percent difference of
exactly 100 (this also matches the `f64` computation: `0 / r2 = 0`). -/
lemma percent_diff_zero_left (r2 : Nat) : percent_diff 0 r2 = 100 := by
  unfold percent_diff
  rw [Nat.cast_zero, zero_div, zero_sub, abs_neg, abs_one, one_mul]

lemma percent_diff_of_le (r1 r2 : Nat) (h2 : 0 < r2) (h : r2 ≤ r1) :
    percent_diff r1 r2 = ((r1 : ℚ) / r2 - 1) * 100 := by
  unfold percent_diff
  rw [abs_of_nonneg]
  rw [sub_nonneg, le_div_iff₀ (by exact_mod_cast h2), one_mul]
  exact_mod_cast h

/-- Structure of `check_for_arbitrage`: the Swap2 direction is returned
exactly when the percent difference is zero and the threshold is
negative. -/
lemma check_for_arbitrage_swap2_iff (r1 r2 temperature : Nat) :
    check_for_arbitrage r1 r2 temperature = some Buy.Swap2 ↔
      (percent_diff r1 r2 = 0 ∧ (100 : ℚ) - temperature < 0) := by
  simp only [check_for_arbitrage]
  constructor
  · intro h
    by_cases hq : percent_diff r1 r2 > 100 - (temperature : ℚ)
    · rw [if_pos hq] at h
      by_cases hp : percent_diff r1 r2 > 0
      · rw [if_pos hp] at h
        simp at h
      · rw [if_neg hp] at h
        have h0 : percent_diff r1 r2 = 0 :=
          le_antisymm (not_lt.mp hp) (percent_diff_nonneg r1 r2)
        refine ⟨h0, ?_⟩
        rw [h0] at hq
        linarith
    · rw [if_neg hq] at h
      simp at h
  · rintro ⟨h0, hneg⟩
    have hgt : percent_diff r1 r2 > 100 - (temperature : ℚ) := by
      rw [h0]
      exact hneg
    have hngt : ¬ percent_diff r1 r2 > 0 := by
      rw [h0]
      exact lt_irrefl 0
    rw [if_pos hgt, if_neg hngt]

/-- Structure of `check_for_arbitrage`: a pair qualifies (returns `some`)
exactly when the percent difference exceeds the threshold. -/
lemma check_for_arbitrage_eq_none_iff (r1 r2 temperature : Nat) :
    check_for_arbitrage r1 r2 temperature = none ↔
      ¬ percent_diff r1 r2 > 100 - (temperature : ℚ) := by
  simp only [check_for_arbitrage]
  by_cases hq : percent_diff r1 r2 > 100 - (temperature : ℚ)
  · rw [if_pos hq]
    by_cases hp : percent_diff r1 r2 > 0
    · rw [if_pos hp]
      simp [hq]
    · rw [if_neg hp]
      simp [hq]
  · rw [if_neg hq]
    simp [hq]

/-- C1: for every pair that qualifies as arbitrage, the direction is
`Buy::Swap1` ("buy on pool 1, sell on pool 2") unless the tested percent
difference is non-positive, in which case it is `Buy::Swap2`; and since
that value is an absolute value, the `Buy::Swap2` branch is unreachable
whenever the threshold `100 - temperature` is nonnegative, i.e. for
every temperature between 0 and 100. -/
theorem claim_C1 (r_swap_1 r_swap_2 temperature : Nat) (b : Buy)
    (h : check_for_arbitrage r_swap_1 r_swap_2 temperature = some b) :
    (0 < percent_diff r_swap_1 r_swap_2 → b = Buy.Swap1) ∧
    (percent_diff r_swap_1 r_swap_2 ≤ 0 → b = Buy.Swap2) ∧
    (temperature ≤ 100 → b = Buy.Swap1) := by
  simp only [check_for_arbitrage] at h
  by_cases hq : percent_diff r_swap_1 r_swap_2 > 100 - (temperature : ℚ)
  · rw [if_pos hq] at h
    by_cases hp : percent_diff r_swap_1 r_swap_2 > 0
    · rw [if_pos hp] at h
      obtain rfl : Buy.Swap1 = b := Option.some.inj h
      exact ⟨fun _ => rfl, fun hle => absurd hp (not_lt.mpr hle), fun _ => rfl⟩
    · rw [if_neg hp] at h
      obtain rfl : Buy.Swap2 = b := Option.some.inj h
      refine ⟨fun hlt => absurd hlt hp, fun _ => rfl, fun h100 => ?_⟩
      exfalso
      apply hp
      have hc : (temperature : ℚ) ≤ 100 := by exact_mod_cast h100
      calc (0 : ℚ) ≤ 100 - temperature := by linarith
        _ < percent_diff r_swap_1 r_swap_2 := hq
  · rw [if_neg hq] at h
    simp at h

/-- Witness for C1 at a concrete qualifying input: quotes 3 and 1 at
temperature 0 qualify (percent difference 200 against threshold 100) and
the buy-on-pool-1 direction is chosen. -/
theorem claim_C1_witness :
    check_for_arbitrage 3 1 0 = some Buy.Swap1 ∧
      ((0 : Nat) ≤ 100 → Buy.Swap1 = Buy.Swap1) := by
  have hpd : percent_diff 3 1 = 200 := by
    rw [percent_diff_of_le 3 1 (by norm_num) (by norm_num)]
    norm_num
  have hc : check_for_arbitrage 3 1 0 = some Buy.Swap1 := by
    simp only [check_for_arbitrage, hpd]
    norm_num
  exact ⟨hc, fun h100 => (claim_C1 3 1 0 Buy.Swap1 hc).2.2 h100⟩

/-- C10: when the (unchecked) `u8` temperature exceeds 100 the derived
threshold is negative, so `check_for_arbitrage` returns `some` for every
pair of nonzero quotes, and the `Buy::Swap2` direction is returned
exactly when the two quotes are equal; moreover a `Buy::Swap2` result is
only possible with a temperature above 100 and equal quotes. -/
theorem claim_C10 :
    (∀ r1 r2 temperature : Nat, 100 < temperature → 0 < r1 → 0 < r2 →
      (check_for_arbitrage r1 r2 temperature).isSome = true ∧
        (check_for_arbitrage r1 r2 temperature = some Buy.Swap2 ↔ r1 = r2)) ∧
    (∀ r1 r2 temperature : Nat,
      check_for_arbitrage r1 r2 temperature = some Buy.Swap2 →
        100 < temperature ∧ r1 = r2) := by
  constructor
  · intro r1 r2 temperature ht _ h2
    have htq : (100 : ℚ) - temperature < 0 := by
      have : (100 : ℚ) < temperature := by exact_mod_cast ht
      linarith
    constructor
    · simp only [check_for_arbitrage]
      rw [if_pos (lt_of_lt_of_le htq (percent_diff_nonneg r1 r2))]
      by_cases hp : percent_diff r1 r2 > 0
      · rw [if_pos hp]
        rfl
      · rw [if_neg hp]
        rfl
    · rw [check_for_arbitrage_swap2_iff]
      constructor
      · rintro ⟨h0, -⟩
        exact ((percent_diff_eq_zero_iff r1 r2).mp h0).1
      · intro heq
        exact ⟨(percent_diff_eq_zero_iff r1 r2).mpr ⟨heq, Nat.pos_iff_ne_zero.mp h2⟩, htq⟩
  · intro r1 r2 temperature h
    obtain ⟨h0, hneg⟩ := (check_for_arbitrage_swap2_iff r1 r2 temperature).mp h
    refine ⟨?_, ((percent_diff_eq_zero_iff r1 r2).mp h0).1⟩
    by_contra h100
    have hc : (temperature : ℚ) ≤ 100 := by exact_mod_cast not_lt.mp h100
    linarith

/-- Witness for C10: equal nonzero quotes 5 and 5 at temperature 101
drive the otherwise-unreachable buy-on-pool-2 branch. -/
theorem claim_C10_witness : check_for_arbitrage 5 5 101 = some Buy.Swap2 :=
  (claim_C10.1 5 5 101 (by norm_num) (by norm_num) (by norm_num)).2.mpr rfl

/-- Modelled from the spec's words for C2 (§4.2 `quoteReceive`): the
result is `receive = (R * p) / (P + p)` on quantities normalized by
`10^decimals` of their own asset, failing with `InsufficientLiquidity`
exactly when the normalized receive value exceeds `R`, and otherwise
denormalized by `10^receiveDecimals` with truncation toward zero. -/
def quoteReceive_spec (poolReceiveReserve receiveDecimals
    poolPayReserve payDecimals payAmount : Nat) :
    Except ArbitrageProgramError Nat :=
  let bigR : ℚ := (poolReceiveReserve : ℚ) / 10 ^ receiveDecimals
  let bigP : ℚ := (poolPayReserve : ℚ) / 10 ^ payDecimals
  let p : ℚ := (payAmount : ℚ) / 10 ^ payDecimals
  let receive : ℚ := bigR * p / (bigP + p)
  if receive > bigR then .error .InvalidSwapNotEnoughLiquidity
  else .ok (Int.toNat ⌊receive * 10 ^ receiveDecimals⌋)

/-- C2: `determine_swap_receive` computes exactly the spec's
`quoteReceive` contract (for any `u64` reserve, the saturation bound of
the final integer cast never binds because the result is at most the
receive reserve). -/
theorem claim_C2 (Rb dR Pb dP p : Nat) (hRb : Rb < 2 ^ 64) :
    determine_swap_receive Rb dR Pb dP p = quoteReceive_spec Rb dR Pb dP p := by
  have hle := swap_receive_rat_le Rb dR Pb dP p
  have hspec : quoteReceive_spec Rb dR Pb dP p =
      .ok (Int.toNat ⌊swap_receive_rat Rb dR Pb dP p * 10 ^ dR⌋) := by
    show (if convert_to_float Rb dR < swap_receive_rat Rb dR Pb dP p then
        Except.error ArbitrageProgramError.InvalidSwapNotEnoughLiquidity
      else Except.ok (Int.toNat ⌊swap_receive_rat Rb dR Pb dP p * 10 ^ dR⌋)) = _
    rw [if_neg (not_lt.mpr hle)]
  rw [determine_swap_receive_eq_ok, hspec]
  unfold convert_from_float
  have h10 : (0 : ℚ) < 10 ^ dR := by positivity
  have hmul : swap_receive_rat Rb dR Pb dP p * 10 ^ dR ≤ (Rb : ℚ) := by
    calc swap_receive_rat Rb dR Pb dP p * 10 ^ dR
        ≤ convert_to_float Rb dR * 10 ^ dR :=
          mul_le_mul_of_nonneg_right hle (le_of_lt h10)
      _ = (Rb : ℚ) := by
          unfold convert_to_float
          exact div_mul_cancel₀ _ (ne_of_gt h10)
  have hfl : ⌊swap_receive_rat Rb dR Pb dP p * 10 ^ dR⌋ ≤ (Rb : ℤ) := by
    have := Int.floor_mono hmul
    rwa [Int.floor_natCast] at this
  have htn : Int.toNat ⌊swap_receive_rat Rb dR Pb dP p * 10 ^ dR⌋ ≤ Rb :=
    Int.toNat_le.mpr hfl
  congr 1
  exact min_eq_left (le_trans htn (by omega))

/-- Witness for C2 at the spec's own worked example shape: reserves 1000
and 1000, pay 100 (all zero-decimal) quote 90 both in the code and in
the spec formula. -/
theorem claim_C2_witness :
    (1000 : Nat) < 2 ^ 64 ∧
      determine_swap_receive 1000 0 1000 0 100 =
        quoteReceive_spec 1000 0 1000 0 100 :=
  ⟨by norm_num, claim_C2 1000 0 1000 0 100 (by norm_num)⟩

deriving instance DecidableEq for Except

/-- Little-endian `u64` read, as `bytemuck` reinterprets the 8 amount
bytes of a holding record on the little-endian target. -/
def u64_from_le_bytes (bytes : List Nat) : Nat :=
  bytes.foldr (fun b acc => b + 256 * acc) 0

/-- The 72-byte fixed layout decoded from a holding record
(`struct PartialTokenAccountState`): 32-byte mint, 32-byte owner,
8-byte amount. -/
structure PartialTokenAccountState where
  mint : List Nat
  owner : List Nat
  amount : Nat
deriving DecidableEq, Repr

/-- `PartialTokenAccountState::try_deserialize`: rejects buffers shorter
than 72 bytes with `InvalidAccountsList`, reinterprets the first 72
bytes at fixed offsets (the `bytemuck::try_from_bytes` call on a 72-byte
slice of a plain-old-data type always succeeds at the byte level; its
failure arm maps to `InvalidAccountsList` too), then compares the
decoded owner against the expected owner, returning
`InvalidAccountsList` on mismatch (the code logs "Owner mismatch" but
returns that same error variant). -/
def PartialTokenAccountState.try_deserialize (data : List Nat)
    (owner : List Nat) :
    Except ArbitrageProgramError PartialTokenAccountState :=
  if data.length < 72 then .error .InvalidAccountsList
  else
    let decoded_token : PartialTokenAccountState :=
      { mint := data.take 32
        owner := (data.drop 32).take 32
        amount := u64_from_le_bytes ((data.drop 64).take 8) }
    if decoded_token.owner ≠ owner then .error .InvalidAccountsList
    else .ok decoded_token

/-- `PartialMintState::try_deserialize`: rejects buffers shorter than 41
bytes with `InvalidAccountsList`, reinterprets the first 40 bytes (again
always byte-level-valid for the plain-old-data layout), then reads the
decimals byte at offset 40 of the 41-byte window; the `None` fallback of
that read also maps to `InvalidAccountsList`. -/
def PartialMintState.try_deserialize (data : List Nat) :
    Except ArbitrageProgramError Nat :=
  if data.length < 41 then .error .InvalidAccountsList
  else
    match (data.take 41).get? 40 with
    | some decimals => .ok decimals
    | none => .error .InvalidAccountsList

lemma get?_eq_some_getD (l : List Nat) (i : Nat) (h : i < l.length) :
    l.get? i = some (l.getD i 0) := by
  induction l generalizing i with
  | nil => simp at h
  | cons a t ih =>
    cases i with
    | zero => rfl
    | succ n =>
      have hn : n < t.length := by simpa using h
      simpa [List.getD] using ih n hn

/-- C5 (code dissent): a well-formed 72-byte holding record whose owner
field (all zero bytes) differs from the expected owner (all 0x01 bytes)
is rejected with `InvalidAccountsList`, not with the dedicated
owner-mismatch variant `TokenAccountOwnerNotFound` that the error enum
declares (and never uses). -/
theorem claim_C5_eval :
    PartialTokenAccountState.try_deserialize (List.replicate 72 0)
        (List.replicate 32 1) =
      .error .InvalidAccountsList ∧
    ArbitrageProgramError.InvalidAccountsList ≠
      ArbitrageProgramError.TokenAccountOwnerNotFound ∧
    ArbitrageProgramError.InvalidAccountsList.toCustomCode ≠
      ArbitrageProgramError.TokenAccountOwnerNotFound.toCustomCode := by
  refine ⟨?_, by decide, by decide⟩
  decide

/-- C6 counterexample: a definition record of exactly 40 bytes produces
the very same error as a too-short 39-byte record — `InvalidAccountsList`
from the minimum-length check — so no distinct "decimals missing" error
kind exists. -/
theorem claim_C6_counterexample :
    PartialMintState.try_deserialize (List.replicate 40 0) =
        .error .InvalidAccountsList ∧
    PartialMintState.try_deserialize (List.replicate 40 0) =
      PartialMintState.try_deserialize (List.replicate 39 0) := by
  constructor <;> decide

/-- C6 amended: every buffer shorter than 41 bytes — including the
exactly-40-byte case — fails the minimum-length check with
`InvalidAccountsList` (no distinct error), and every buffer of at least
41 bytes decodes successfully to its byte at offset 40, so the
missing-decimals fallback branch is unreachable. -/
theorem claim_C6_amended :
    (∀ data : List Nat, data.length < 41 →
      PartialMintState.try_deserialize data = .error .InvalidAccountsList) ∧
    (∀ data : List Nat, 41 ≤ data.length →
      PartialMintState.try_deserialize data = .ok (data.getD 40 0)) := by
  constructor
  · intro data h
    unfold PartialMintState.try_deserialize
    rw [if_pos h]
  · intro data h
    unfold PartialMintState.try_deserialize
    rw [if_neg (not_lt.mpr h)]
    have h40 : (40 : Nat) < (data.take 41).length := by
      rw [List.length_take]
      omega
    rw [get?_eq_some_getD _ 40 h40]
    have : (data.take 41).getD 40 0 = data.getD 40 0 := by
      have h41 : (40 : Nat) < 41 := by norm_num
      simp [List.getD, List.getElem?_take, h41]
    rw [this]

/-- Witness for C6 amended: a 40-byte zero buffer is rejected with
`InvalidAccountsList`, while a 41-byte buffer of 7s decodes decimals
7. -/
theorem claim_C6_witness :
    PartialMintState.try_deserialize (List.replicate 40 0) =
        .error .InvalidAccountsList ∧
    PartialMintState.try_deserialize (List.replicate 41 7) = .ok 7 := by
  constructor
  · exact claim_C6_amended.1 (List.replicate 40 0) (by decide)
  · have h := claim_C6_amended.2 (List.replicate 41 7) (by decide)
    rwa [show (List.replicate 41 7).getD 40 0 = 7 from rfl] at h

/-- Big-endian byte encoding of a `u64` amount (`u64::to_be_bytes` in
`build_ix_datas`): byte `k` is `amount / 256^(7-k) % 256`. -/
def u64_to_be_bytes (amount : Nat) : List Nat :=
  (List.range 8).map fun k => amount / 256 ^ (7 - k) % 256

/-- `build_ix_datas` from `arb.rs`: each leg's 16-byte payload is the
first 8 bytes of the 32-byte digest of the ASCII tag `"global:swap"`
(the `solana_program::hash::hash` SHA-256 call is a library primitive
outside this repository, so the digest is taken here as an arbitrary
32-byte value), followed by the leg's amount in big-endian. -/
def build_ix_datas (swap_ix_hash : List Nat) (buy_amount sell_amount : Nat) :
    List Nat × List Nat :=
  (swap_ix_hash.take 8 ++ u64_to_be_bytes buy_amount,
    swap_ix_hash.take 8 ++ u64_to_be_bytes sell_amount)

lemma u64_to_be_bytes_length (amount : Nat) :
    (u64_to_be_bytes amount).length = 8 := by
  unfold u64_to_be_bytes
  rw [List.length_map, List.length_range]

/-- Decoding the big-endian bytes most-significant-first recovers the
encoded `u64` amount. -/
lemma u64_to_be_bytes_foldl (amount : Nat) (h : amount < 2 ^ 64) :
    (u64_to_be_bytes amount).foldl (fun acc b => 256 * acc + b) 0 = amount := by
  rw [show u64_to_be_bytes amount =
      [amount / 256 ^ 7 % 256, amount / 256 ^ 6 % 256, amount / 256 ^ 5 % 256,
        amount / 256 ^ 4 % 256, amount / 256 ^ 3 % 256, amount / 256 ^ 2 % 256,
        amount / 256 ^ 1 % 256, amount / 256 ^ 0 % 256] from rfl]
  simp only [List.foldl]
  norm_num
  omega

/-- C8: each leg's payload is exactly 16 bytes; its first 8 bytes are
the first 8 bytes of the fixed 32-byte hash of the known ASCII tag; its
last 8 bytes are the big-endian encoding of that leg's `u64` amount
(decodable back to the amount); the buy payload carries the buy amount
and the sell payload carries the sell amount. -/
theorem claim_C8 (swap_ix_hash : List Nat) (hh : swap_ix_hash.length = 32)
    (buy_amount sell_amount : Nat)
    (hbuy : buy_amount < 2 ^ 64) (hsell : sell_amount < 2 ^ 64) :
    ((build_ix_datas swap_ix_hash buy_amount sell_amount).1.length = 16 ∧
      (build_ix_datas swap_ix_hash buy_amount sell_amount).2.length = 16) ∧
    ((build_ix_datas swap_ix_hash buy_amount sell_amount).1.take 8 =
        swap_ix_hash.take 8 ∧
      (build_ix_datas swap_ix_hash buy_amount sell_amount).2.take 8 =
        swap_ix_hash.take 8) ∧
    ((build_ix_datas swap_ix_hash buy_amount sell_amount).1.drop 8 =
        u64_to_be_bytes buy_amount ∧
      (build_ix_datas swap_ix_hash buy_amount sell_amount).2.drop 8 =
        u64_to_be_bytes sell_amount) ∧
    ((u64_to_be_bytes buy_amount).foldl (fun acc b => 256 * acc + b) 0 =
        buy_amount ∧
      (u64_to_be_bytes sell_amount).foldl (fun acc b => 256 * acc + b) 0 =
        sell_amount) := by
  have htl : (swap_ix_hash.take 8).length = 8 := by
    rw [List.length_take, hh]
    norm_num
  have hA : ∀ B : List Nat, (swap_ix_hash.take 8 ++ B).take 8 = swap_ix_hash.take 8 := by
    intro B
    calc (swap_ix_hash.take 8 ++ B).take 8
        = (swap_ix_hash.take 8 ++ B).take (swap_ix_hash.take 8).length := by rw [htl]
      _ = swap_ix_hash.take 8 := List.take_left _ _
  have hB : ∀ B : List Nat, (swap_ix_hash.take 8 ++ B).drop 8 = B := by
    intro B
    calc (swap_ix_hash.take 8 ++ B).drop 8
        = (swap_ix_hash.take 8 ++ B).drop (swap_ix_hash.take 8).length := by rw [htl]
      _ = B := List.drop_left _ _
  have h1 : (build_ix_datas swap_ix_hash buy_amount sell_amount).1 =
      swap_ix_hash.take 8 ++ u64_to_be_bytes buy_amount := rfl
  have h2 : (build_ix_datas swap_ix_hash buy_amount sell_amount).2 =
      swap_ix_hash.take 8 ++ u64_to_be_bytes sell_amount := rfl
  rw [h1, h2]
  refine ⟨⟨?_, ?_⟩, ⟨hA _, hA _⟩, ⟨hB _, hB _⟩,
    u64_to_be_bytes_foldl buy_amount hbuy, u64_to_be_bytes_foldl sell_amount hsell⟩
  · rw [List.length_append, htl, u64_to_be_bytes_length]
  · rw [List.length_append, htl, u64_to_be_bytes_length]

/-- Witness for C8 at a concrete 32-byte hash and amounts 300 and 2. -/
theorem claim_C8_witness :
    (build_ix_datas (List.range 32) 300 2).1.length = 16 ∧
    (build_ix_datas (List.range 32) 300 2).1.take 8 = (List.range 32).take 8 ∧
    (u64_to_be_bytes 300).foldl (fun acc b => 256 * acc + b) 0 = 300 := by
  have h := claim_C8 (List.range 32) (by decide) 300 2 (by norm_num) (by norm_num)
  exact ⟨h.1.1, h.2.1.1, h.2.2.2.1⟩

/-- One outgoing external call of `invoke_arbitrage`: a target program
identity, the ordered account references, and the leg's amount.
(Identities are `Nat` stand-ins; the payload bytes are covered by
`build_ix_datas`.) -/
structure CallSpec where
  program_id : Nat
  account_ids : List Nat
  amount : Nat
deriving DecidableEq, Repr

/-- `invoke_arbitrage` from `arb.rs`: builds both instructions, then
issues the buy call and — only if it succeeded — the sell call, with
`?`-propagation of a failed call.  The opaque external-call collaborator
(`solana_program::program::invoke`) is a parameter reporting success per
call; the model returns the ordered trace of calls actually issued and
the overall outcome (`false` = a failure was propagated). -/
def invoke_arbitrage (invoke_ok : CallSpec → Bool) (buy sell : CallSpec) :
    List CallSpec × Bool :=
  if invoke_ok buy then
    (if invoke_ok sell then ([buy, sell], true) else ([buy, sell], false))
  else ([buy], false)

/-- C9: the issued-call trace always starts with the buy leg; it is
either `[buy]` or `[buy, sell]`; when the buy call fails the trace is
`[buy]` alone with the failure propagated (the sell leg is never
issued); and the sell leg is issued only when the buy call succeeded. -/
theorem claim_C9 (invoke_ok : CallSpec → Bool) (buy sell : CallSpec) :
    ((invoke_arbitrage invoke_ok buy sell).1 = [buy] ∨
      (invoke_arbitrage invoke_ok buy sell).1 = [buy, sell]) ∧
    ((invoke_arbitrage invoke_ok buy sell).1.head? = some buy) ∧
    (invoke_ok buy = false →
      (invoke_arbitrage invoke_ok buy sell).1 = [buy] ∧
        (invoke_arbitrage invoke_ok buy sell).2 = false) ∧
    ((invoke_arbitrage invoke_ok buy sell).1 = [buy, sell] →
      invoke_ok buy = true) := by
  cases hb : invoke_ok buy <;> cases hs : invoke_ok sell <;>
    simp [invoke_arbitrage, hb, hs]

/-- Witness for C9: with an external collaborator that fails every call,
only the buy leg is issued and the failure is propagated. -/
theorem claim_C9_witness :
    (invoke_arbitrage (fun _ => false) ⟨1, [], 5⟩ ⟨2, [], 6⟩).1 =
        [⟨1, [], 5⟩] ∧
      (invoke_arbitrage (fun _ => false) ⟨1, [], 5⟩ ⟨2, [], 6⟩).2 = false :=
  (claim_C9 (fun _ => false) ⟨1, [], 5⟩ ⟨2, [], 6⟩).2.2.1 rfl

/-- The per-asset inputs of `try_arbitrage` (`struct TryArbitrageArgs`):
four index-aligned sequences and the temperature.  Each token account is
reduced to its decoded balance (component `.3` of
`ArbitrageTokenAccountInfo`) and each mint to its decimals (component
`.1` of `ArbitrageMintInfo`); the `AccountInfo` references and pubkeys
those tuples carry do not influence the scan decisions, only which
accounts are placed into the outgoing instructions. -/
structure TryArbitrageArgs where
  token_accounts_user : List Nat
  token_accounts_swap_1 : List Nat
  token_accounts_swap_2 : List Nat
  mints : List Nat
  temperature : Nat
deriving DecidableEq, Repr

/-- The outcome of a successful scan: the acted-upon pair `(i, j)`, the
chosen direction, and the two leg amounts handed to `invoke_arbitrage`
(`Buy::Swap1` passes `user_i.3` and `r_swap_1`; `Buy::Swap2` passes
`r_swap_2` and `user_j.3`). -/
structure TradeResult where
  i : Nat
  j : Nat
  direction : Buy
  buy_amount : Nat
  sell_amount : Nat
deriving DecidableEq, Repr

/-- The body of the inner loop of `try_arbitrage` for one pair `(i, j)`
once the six account values are fetched: compute the two quotes
(`?`-propagating a failure), skip the pair (`.ok none`) when either
quote is zero or exceeds the issuing pool's reserve of asset `j`, and
otherwise consult `check_for_arbitrage`, producing the trade (`.ok
(some ..)`) or falling through (`.ok none`). -/
def pairTrade (temperature i j user_i user_j swap_1_i swap_1_j swap_2_i
    swap_2_j mint_i mint_j : Nat) :
    Except ArbitrageProgramError (Option TradeResult) :=
  match determine_swap_receive swap_1_j mint_j swap_1_i mint_i user_i with
  | .error e => .error e
  | .ok r_swap_1 =>
    match determine_swap_receive swap_2_j mint_j swap_2_i mint_i user_i with
    | .error e => .error e
    | .ok r_swap_2 =>
      if r_swap_1 = 0 ∨ r_swap_1 > swap_1_j ∨ r_swap_2 = 0 ∨ r_swap_2 > swap_2_j then
        .ok none
      else
        match check_for_arbitrage r_swap_1 r_swap_2 temperature with
        | some Buy.Swap1 => .ok (some ⟨i, j, Buy.Swap1, user_i, r_swap_1⟩)
        | some Buy.Swap2 => .ok (some ⟨i, j, Buy.Swap2, r_swap_2, user_j⟩)
        | none => .ok none

/-- The inner `for j in (i + 1)..mints_len` loop of `try_arbitrage`:
fetches the four `j`-indexed values (`.get(j).ok_or_arb_err()?`, any
out-of-range access aborting with `InvalidAccountsList`), runs the pair
body, returns on a found trade or propagated error, and otherwise
continues with the remaining `j` indices. -/
def innerLoop (args : TryArbitrageArgs) (i user_i swap_1_i swap_2_i mint_i : Nat) :
    List Nat → Except ArbitrageProgramError (Option TradeResult)
  | [] => .ok none
  | j :: rest =>
    match args.token_accounts_user.get? j, args.token_accounts_swap_1.get? j,
        args.token_accounts_swap_2.get? j, args.mints.get? j with
    | some user_j, some swap_1_j, some swap_2_j, some mint_j =>
      match pairTrade args.temperature i j user_i user_j swap_1_i swap_1_j
          swap_2_i swap_2_j mint_i mint_j with
      | .error e => .error e
      | .ok (some trade) => .ok (some trade)
      | .ok none => innerLoop args i user_i swap_1_i swap_2_i mint_i rest
    | _, _, _, _ => .error .InvalidAccountsList

/-- The outer `for i in 0..mints_len` loop of `try_arbitrage`: fetches
the four `i`-indexed values, runs the inner loop over `(i + 1)..n`, and
continues with the remaining `i` indices when no trade was found. -/
def outerLoop (args : TryArbitrageArgs) :
    List Nat → Except ArbitrageProgramError (Option TradeResult)
  | [] => .ok none
  | i :: rest =>
    match args.token_accounts_user.get? i, args.token_accounts_swap_1.get? i,
        args.token_accounts_swap_2.get? i, args.mints.get? i with
    | some user_i, some swap_1_i, some swap_2_i, some mint_i =>
      match innerLoop args i user_i swap_1_i swap_2_i mint_i
          (List.range' (i + 1) (args.mints.length - (i + 1))) with
      | .error e => .error e
      | .ok (some trade) => .ok (some trade)
      | .ok none => outerLoop args rest
    | _, _, _, _ => .error .InvalidAccountsList

/-- `try_arbitrage` from `arb.rs`: scans all pairs `(i, j)`, `i < j`, in
ascending order; the first qualifying pair produces the trade (in the
source, immediately handed to `invoke_arbitrage` — the dispatch effects
are modelled separately by `invoke_arbitrage` above, so the scan returns
the selected `TradeResult`); exhausting all pairs yields
`Err(NoArbitrage)`. -/
def try_arbitrage (args : TryArbitrageArgs) :
    Except ArbitrageProgramError TradeResult :=
  match outerLoop args (List.range args.mints.length) with
  | .error e => .error e
  | .ok (some trade) => .ok trade
  | .ok none => .error .NoArbitrage

/-- The four input sequences are index-aligned (§3 invariant: "all four
sequences must have equal length"). -/
def valid_lengths (args : TryArbitrageArgs) : Prop :=
  args.token_accounts_user.length = args.mints.length ∧
  args.token_accounts_swap_1.length = args.mints.length ∧
  args.token_accounts_swap_2.length = args.mints.length

instance (args : TryArbitrageArgs) : Decidable (valid_lengths args) :=
  inferInstanceAs (Decidable (_ ∧ _ ∧ _))

/-- The integer quote on pool 1 for pair `(i, j)`: what
`determine_swap_receive(swap_1_j.3, mint_j.1, swap_1_i.3, mint_i.1,
user_i.3)` returns (it never fails in the exact-rational model). -/
def quote_1 (args : TryArbitrageArgs) (i j : Nat) : Nat :=
  convert_from_float
    (swap_receive_rat (args.token_accounts_swap_1.getD j 0) (args.mints.getD j 0)
      (args.token_accounts_swap_1.getD i 0) (args.mints.getD i 0)
      (args.token_accounts_user.getD i 0))
    (args.mints.getD j 0)

/-- The integer quote on pool 2 for pair `(i, j)`. -/
def quote_2 (args : TryArbitrageArgs) (i j : Nat) : Nat :=
  convert_from_float
    (swap_receive_rat (args.token_accounts_swap_2.getD j 0) (args.mints.getD j 0)
      (args.token_accounts_swap_2.getD i 0) (args.mints.getD i 0)
      (args.token_accounts_user.getD i 0))
    (args.mints.getD j 0)

/-- The pure per-pair outcome of the scan at `(i, j)` (for index-aligned
inputs): `none` when the pair is skipped or does not qualify, `some`
with the trade when it qualifies. -/
def pair_step (args : TryArbitrageArgs) (i j : Nat) : Option TradeResult :=
  let r_swap_1 := quote_1 args i j
  let r_swap_2 := quote_2 args i j
  if r_swap_1 = 0 ∨ r_swap_1 > args.token_accounts_swap_1.getD j 0 ∨
      r_swap_2 = 0 ∨ r_swap_2 > args.token_accounts_swap_2.getD j 0 then
    none
  else
    match check_for_arbitrage r_swap_1 r_swap_2 args.temperature with
    | some Buy.Swap1 =>
        some ⟨i, j, Buy.Swap1, args.token_accounts_user.getD i 0, r_swap_1⟩
    | some Buy.Swap2 =>
        some ⟨i, j, Buy.Swap2, r_swap_2, args.token_accounts_user.getD j 0⟩
    | none => none

/-- The scan as a first-match search over the ascending pair ordering:
outer index from `List.range n`, inner index from `i + 1` to `n - 1`. -/
def scan_spec (args : TryArbitrageArgs) : Option TradeResult :=
  (List.range args.mints.length).findSome? fun i =>
    (List.range' (i + 1) (args.mints.length - (i + 1))).findSome?
      (pair_step args i)

/-- Bridge: with the four `j`-values fetched from the aligned sequences,
the loop body equals the pure per-pair outcome (no error possible in the
exact-rational model). -/
lemma pairTrade_eq (args : TryArbitrageArgs) (i j : Nat) :
    pairTrade args.temperature i j
      (args.token_accounts_user.getD i 0) (args.token_accounts_user.getD j 0)
      (args.token_accounts_swap_1.getD i 0) (args.token_accounts_swap_1.getD j 0)
      (args.token_accounts_swap_2.getD i 0) (args.token_accounts_swap_2.getD j 0)
      (args.mints.getD i 0) (args.mints.getD j 0) =
      .ok (pair_step args i j) := by
  unfold pairTrade
  rw [determine_swap_receive_eq_ok, determine_swap_receive_eq_ok]
  show (if quote_1 args i j = 0 ∨ quote_1 args i j > args.token_accounts_swap_1.getD j 0 ∨
        quote_2 args i j = 0 ∨ quote_2 args i j > args.token_accounts_swap_2.getD j 0 then
      (Except.ok none : Except ArbitrageProgramError (Option TradeResult))
    else
      match check_for_arbitrage (quote_1 args i j) (quote_2 args i j) args.temperature with
      | some Buy.Swap1 =>
          Except.ok (some ⟨i, j, Buy.Swap1, args.token_accounts_user.getD i 0, quote_1 args i j⟩)
      | some Buy.Swap2 =>
          Except.ok (some ⟨i, j, Buy.Swap2, quote_2 args i j, args.token_accounts_user.getD j 0⟩)
      | none => Except.ok none) = Except.ok (pair_step args i j)
  unfold pair_step
  by_cases hg : quote_1 args i j = 0 ∨ quote_1 args i j > args.token_accounts_swap_1.getD j 0 ∨
      quote_2 args i j = 0 ∨ quote_2 args i j > args.token_accounts_swap_2.getD j 0
  · rw [if_pos hg, if_pos hg]
  · rw [if_neg hg, if_neg hg]
    cases hc : check_for_arbitrage (quote_1 args i j) (quote_2 args i j) args.temperature with
    | none => rfl
    | some b => cases b <;> rfl

/-- Inner-loop characterization: over in-range indices the inner loop is
the first-match search of `pair_step` along its index list. -/
lemma innerLoop_eq (args : TryArbitrageArgs) (i : Nat)
    (hu : args.token_accounts_user.length = args.mints.length)
    (h1 : args.token_accounts_swap_1.length = args.mints.length)
    (h2 : args.token_accounts_swap_2.length = args.mints.length)
    (js : List Nat) (hjs : ∀ j ∈ js, j < args.mints.length) :
    innerLoop args i (args.token_accounts_user.getD i 0)
      (args.token_accounts_swap_1.getD i 0) (args.token_accounts_swap_2.getD i 0)
      (args.mints.getD i 0) js = .ok (js.findSome? (pair_step args i)) := by
  induction js with
  | nil => rfl
  | cons j rest ih =>
    have hj : j < args.mints.length := hjs j (List.mem_cons_self j rest)
    rw [innerLoop, get?_eq_some_getD _ j (by rw [hu]; exact hj),
      get?_eq_some_getD _ j (by rw [h1]; exact hj),
      get?_eq_some_getD _ j (by rw [h2]; exact hj),
      get?_eq_some_getD _ j hj]
    show (match pairTrade args.temperature i j
        (args.token_accounts_user.getD i 0) (args.token_accounts_user.getD j 0)
        (args.token_accounts_swap_1.getD i 0) (args.token_accounts_swap_1.getD j 0)
        (args.token_accounts_swap_2.getD i 0) (args.token_accounts_swap_2.getD j 0)
        (args.mints.getD i 0) (args.mints.getD j 0) with
      | Except.error e => Except.error e
      | Except.ok (some trade) => Except.ok (some trade)
      | Except.ok none => innerLoop args i (args.token_accounts_user.getD i 0)
          (args.token_accounts_swap_1.getD i 0) (args.token_accounts_swap_2.getD i 0)
          (args.mints.getD i 0) rest) = _
    rw [pairTrade_eq args i j, List.findSome?_cons]
    cases hp : pair_step args i j with
    | some trade => rfl
    | none => exact ih (fun k hk => hjs k (List.mem_cons_of_mem j hk))

/-- Outer-loop characterization: over in-range indices the outer loop is
the nested first-match search of `pair_step`. -/
lemma outerLoop_eq (args : TryArbitrageArgs)
    (hu : args.token_accounts_user.length = args.mints.length)
    (h1 : args.token_accounts_swap_1.length = args.mints.length)
    (h2 : args.token_accounts_swap_2.length = args.mints.length)
    (ilist : List Nat) (hil : ∀ i ∈ ilist, i < args.mints.length) :
    outerLoop args ilist = .ok (ilist.findSome? fun i =>
      (List.range' (i + 1) (args.mints.length - (i + 1))).findSome?
        (pair_step args i)) := by
  induction ilist with
  | nil => rfl
  | cons i rest ih =>
    have hi : i < args.mints.length := hil i (List.mem_cons_self i rest)
    have hrange : ∀ j ∈ List.range' (i + 1) (args.mints.length - (i + 1)),
        j < args.mints.length := by
      intro j hjmem
      rw [List.mem_range'_1] at hjmem
      omega
    rw [outerLoop, get?_eq_some_getD _ i (by rw [hu]; exact hi),
      get?_eq_some_getD _ i (by rw [h1]; exact hi),
      get?_eq_some_getD _ i (by rw [h2]; exact hi),
      get?_eq_some_getD _ i hi]
    show (match innerLoop args i (args.token_accounts_user.getD i 0)
        (args.token_accounts_swap_1.getD i 0) (args.token_accounts_swap_2.getD i 0)
        (args.mints.getD i 0) (List.range' (i + 1) (args.mints.length - (i + 1))) with
      | Except.error e => Except.error e
      | Except.ok (some trade) => Except.ok (some trade)
      | Except.ok none => outerLoop args rest) = _
    rw [innerLoop_eq args i hu h1 h2 _ hrange, List.findSome?_cons]
    cases hp : (List.range' (i + 1) (args.mints.length - (i + 1))).findSome?
        (pair_step args i) with
    | some trade => rfl
    | none => exact ih (fun k hk => hil k (List.mem_cons_of_mem i hk))

/-- Scan characterization: for index-aligned inputs, `try_arbitrage` is
the first-match search `scan_spec`, with `NoArbitrage` on an empty
result; in particular no other error can surface. -/
lemma try_arbitrage_eq (args : TryArbitrageArgs) (h : valid_lengths args) :
    try_arbitrage args = match scan_spec args with
      | some trade => .ok trade
      | none => .error .NoArbitrage := by
  unfold try_arbitrage scan_spec
  rw [outerLoop_eq args h.1 h.2.1 h.2.2 _
    (fun i hi => List.mem_range.mp hi)]
  cases (List.range args.mints.length).findSome? fun i =>
      (List.range' (i + 1) (args.mints.length - (i + 1))).findSome?
        (pair_step args i) <;> rfl

/-- First-match characterization of `findSome?` on a contiguous index
range: a hit at `j` with every smaller in-range index missing. -/
lemma findSome?_range'_eq_some_iff {β : Type} (f : Nat → Option β) (s len : Nat)
    (b : β) :
    (List.range' s len).findSome? f = some b ↔
      ∃ j, s ≤ j ∧ j < s + len ∧ f j = some b ∧
        ∀ k, s ≤ k → k < j → f k = none := by
  induction len generalizing s with
  | zero =>
    simp only [List.range']
    constructor
    · intro h
      simp at h
    · rintro ⟨j, h1, h2, -, -⟩
      omega
  | succ n ih =>
    rw [List.range'_succ, List.findSome?_cons]
    cases hf : f s with
    | some c =>
      constructor
      · intro h
        exact ⟨s, le_refl s, by omega, by rw [hf]; exact h,
          fun k hk1 hk2 => by omega⟩
      · rintro ⟨j, hsj, hjlt, hfj, hmin⟩
        by_cases hjs : j = s
        · rw [hjs] at hfj
          rw [hf] at hfj
          exact hfj
        · have h0 : f s = none := hmin s (le_refl s) (by omega)
          rw [hf] at h0
          cases h0
    | none =>
      rw [ih (s + 1)]
      constructor
      · rintro ⟨j, hj1, hj2, hj3, hj4⟩
        refine ⟨j, by omega, by omega, hj3, fun k hk1 hk2 => ?_⟩
        rcases eq_or_lt_of_le hk1 with heq | hlt
        · rw [← heq]
          exact hf
        · exact hj4 k (by omega) hk2
      · rintro ⟨j, hj1, hj2, hj3, hj4⟩
        have hjs : j ≠ s := by
          intro heq
          rw [heq, hf] at hj3
          cases hj3
        exact ⟨j, by omega, by omega, hj3, fun k hk1 hk2 => hj4 k (by omega) hk2⟩

/-- The scan finds nothing exactly when no ascending pair `(i, j)` with
`i < j < n` produces a per-pair outcome. -/
lemma scan_spec_eq_none_iff (args : TryArbitrageArgs) :
    scan_spec args = none ↔
      ∀ i j : Nat, i < j → j < args.mints.length →
        pair_step args i j = none := by
  unfold scan_spec
  rw [List.findSome?_eq_none_iff]
  constructor
  · intro h i j hij hjn
    have hi := h i (List.mem_range.mpr (by omega))
    rw [List.findSome?_eq_none_iff] at hi
    exact hi j (by rw [List.mem_range'_1]; omega)
  · intro h i hi
    rw [List.mem_range] at hi
    rw [List.findSome?_eq_none_iff]
    intro j hj
    rw [List.mem_range'_1] at hj
    exact h i j (by omega) (by omega)

/-- The scan yields trade `tr` exactly when some pair `(i, j)` in range
produces it and every lexicographically earlier in-range pair produces
nothing. -/
lemma scan_spec_eq_some_iff (args : TryArbitrageArgs) (tr : TradeResult) :
    scan_spec args = some tr ↔
      ∃ i j : Nat, i < j ∧ j < args.mints.length ∧
        pair_step args i j = some tr ∧
        ∀ i' j' : Nat, i' < j' → j' < args.mints.length →
          (i' < i ∨ (i' = i ∧ j' < j)) → pair_step args i' j' = none := by
  unfold scan_spec
  rw [List.range_eq_range', findSome?_range'_eq_some_iff]
  constructor
  · rintro ⟨i, -, hin, hfi, hmin⟩
    rw [findSome?_range'_eq_some_iff] at hfi
    obtain ⟨j, hij, hjn, hstep, hjmin⟩ := hfi
    refine ⟨i, j, by omega, by omega, hstep, ?_⟩
    intro i' j' hij' hj'n hlex
    rcases hlex with hlt | ⟨heq, hjlt⟩
    · have h0 := hmin i' (by omega) hlt
      rw [List.findSome?_eq_none_iff] at h0
      exact h0 j' (by rw [List.mem_range'_1]; omega)
    · rw [heq]
      exact hjmin j' (by omega) hjlt
  · rintro ⟨i, j, hij, hjn, hstep, hall⟩
    refine ⟨i, by omega, by omega, ?_, ?_⟩
    · rw [findSome?_range'_eq_some_iff]
      exact ⟨j, by omega, by omega, hstep,
        fun k hk1 hk2 => hall i k (by omega) (by omega) (Or.inr ⟨rfl, hk2⟩)⟩
    · intro i' hi'0 hi'lt
      rw [List.findSome?_eq_none_iff]
      intro j' hj'
      rw [List.mem_range'_1] at hj'
      exact hall i' j' (by omega) (by omega) (Or.inl hi'lt)

/-- A pair contributes nothing exactly when the skip-guard fires or the
percent difference of its two quotes does not exceed the threshold. -/
lemma pair_step_eq_none_iff (args : TryArbitrageArgs) (i j : Nat) :
    pair_step args i j = none ↔
      (quote_1 args i j = 0 ∨
        quote_1 args i j > args.token_accounts_swap_1.getD j 0 ∨
        quote_2 args i j = 0 ∨
        quote_2 args i j > args.token_accounts_swap_2.getD j 0) ∨
      percent_diff (quote_1 args i j) (quote_2 args i j) ≤
        100 - (args.temperature : ℚ) := by
  unfold pair_step
  by_cases hg : quote_1 args i j = 0 ∨
      quote_1 args i j > args.token_accounts_swap_1.getD j 0 ∨
      quote_2 args i j = 0 ∨
      quote_2 args i j > args.token_accounts_swap_2.getD j 0
  · rw [if_pos hg]
    exact ⟨fun _ => Or.inl hg, fun _ => rfl⟩
  · rw [if_neg hg]
    cases hc : check_for_arbitrage (quote_1 args i j) (quote_2 args i j)
        args.temperature with
    | none =>
      have hpd : percent_diff (quote_1 args i j) (quote_2 args i j) ≤
          100 - (args.temperature : ℚ) :=
        not_lt.mp ((check_for_arbitrage_eq_none_iff _ _ _).mp hc)
      exact ⟨fun _ => Or.inr hpd, fun _ => rfl⟩
    | some b =>
      have hne : check_for_arbitrage (quote_1 args i j) (quote_2 args i j)
          args.temperature ≠ none := by
        rw [hc]
        exact Option.some_ne_none b
      have hpd : ¬ percent_diff (quote_1 args i j) (quote_2 args i j) ≤
          100 - (args.temperature : ℚ) := by
        intro hle
        exact hne ((check_for_arbitrage_eq_none_iff _ _ _).mpr (not_lt.mpr hle))
      refine ⟨fun h => ?_, fun hab => ?_⟩
      · cases b <;> simp at h
      · rcases hab with ha | hb
        · exact absurd ha hg
        · exact absurd hb hpd

/-- Concrete quote evaluation for zero-decimal assets. -/
lemma convert_from_swap_rat_zero (Rb Pb p : Nat) :
    convert_from_float (swap_receive_rat Rb 0 Pb 0 p) 0 =
      min (Rb * p / (Pb + p)) (2 ^ 64 - 1) := by
  have h2 := determine_swap_receive_zero_decimals Rb Pb p
  rw [determine_swap_receive_eq_ok] at h2
  exact Except.ok.inj h2

/-- A concrete two-asset input: user balances `[1, 1]`, pool-1 reserves
`[10, 1]`, pool-2 reserves `[10, 11]`, zero decimals, temperature 99
(threshold 1).  For the only pair `(0, 1)` the quotes are `0` and `1`,
so the pair is skipped by the zero-quote guard even though its percent
difference (100) exceeds the threshold (1). -/
def scanArgsA : TryArbitrageArgs := ⟨[1, 1], [10, 1], [10, 11], [0, 0], 99⟩

/-- C3 counterexample: on `scanArgsA` the scan returns the empty result
(`NoArbitrage`) although pair `(0, 1)` satisfies
`percentDiff > threshold` — the claimed "iff" fails because a pair can
qualify by percent difference yet be skipped by the zero-quote guard. -/
theorem claim_C3_counterexample :
    valid_lengths scanArgsA ∧
    try_arbitrage scanArgsA = .error .NoArbitrage ∧
    (0 : Nat) < 1 ∧ 1 < scanArgsA.mints.length ∧
    percent_diff (quote_1 scanArgsA 0 1) (quote_2 scanArgsA 0 1) >
      100 - (scanArgsA.temperature : ℚ) := by
  have hq1 : quote_1 scanArgsA 0 1 = 0 := by
    rw [show quote_1 scanArgsA 0 1 =
      convert_from_float (swap_receive_rat 1 0 10 0 1) 0 from rfl,
      convert_from_swap_rat_zero]
    decide
  have hq2 : quote_2 scanArgsA 0 1 = 1 := by
    rw [show quote_2 scanArgsA 0 1 =
      convert_from_float (swap_receive_rat 11 0 10 0 1) 0 from rfl,
      convert_from_swap_rat_zero]
    decide
  have hvalid : valid_lengths scanArgsA := by decide
  have hnone : scan_spec scanArgsA = none := by
    rw [scan_spec_eq_none_iff]
    intro i j hij hjn
    rw [show scanArgsA.mints.length = 2 from rfl] at hjn
    have hi0 : i = 0 := by omega
    have hj1 : j = 1 := by omega
    subst hi0
    subst hj1
    unfold pair_step
    rw [if_pos (Or.inl hq1)]
  have htry : try_arbitrage scanArgsA = .error .NoArbitrage := by
    rw [try_arbitrage_eq scanArgsA hvalid, hnone]
  refine ⟨hvalid, htry, by norm_num,
    by rw [show scanArgsA.mints.length = 2 from rfl]; norm_num, ?_⟩
  rw [hq1, hq2, percent_diff_zero_left,
    show scanArgsA.temperature = 99 from rfl]
  norm_num

/-- C3 amended: for index-aligned inputs the scan returns the empty
result (`NoArbitrage`) iff every pair `(i, j)` with `i < j < n` either
trips the skip-guard (a zero quote, or a quote exceeding the issuing
pool's reserve of asset `j`) or has percent difference not exceeding the
threshold `100 - temperature`. -/
theorem claim_C3_amended (args : TryArbitrageArgs) (h : valid_lengths args) :
    try_arbitrage args = .error .NoArbitrage ↔
      ∀ i j : Nat, i < j → j < args.mints.length →
        (quote_1 args i j = 0 ∨
          quote_1 args i j > args.token_accounts_swap_1.getD j 0 ∨
          quote_2 args i j = 0 ∨
          quote_2 args i j > args.token_accounts_swap_2.getD j 0) ∨
        percent_diff (quote_1 args i j) (quote_2 args i j) ≤
          100 - (args.temperature : ℚ) := by
  rw [try_arbitrage_eq args h]
  have hm : (match scan_spec args with
      | some trade => (.ok trade : Except ArbitrageProgramError TradeResult)
      | none => .error .NoArbitrage) = .error .NoArbitrage ↔
      scan_spec args = none := by
    cases hs : scan_spec args
    · simp
    · simp
  rw [hm, scan_spec_eq_none_iff]
  constructor <;> intro hall i j hij hjn
  · exact (pair_step_eq_none_iff args i j).mp (hall i j hij hjn)
  · exact (pair_step_eq_none_iff args i j).mpr (hall i j hij hjn)

/-- Witness for C3 amended at `scanArgsA` (valid lengths hold and the
equivalence is instantiated). -/
theorem claim_C3_witness :
    valid_lengths scanArgsA ∧
    (try_arbitrage scanArgsA = .error .NoArbitrage ↔
      ∀ i j : Nat, i < j → j < scanArgsA.mints.length →
        (quote_1 scanArgsA i j = 0 ∨
          quote_1 scanArgsA i j > scanArgsA.token_accounts_swap_1.getD j 0 ∨
          quote_2 scanArgsA i j = 0 ∨
          quote_2 scanArgsA i j > scanArgsA.token_accounts_swap_2.getD j 0) ∨
        percent_diff (quote_1 scanArgsA i j) (quote_2 scanArgsA i j) ≤
          100 - (scanArgsA.temperature : ℚ)) :=
  ⟨by decide, claim_C3_amended scanArgsA (by decide)⟩

/-- C7: for index-aligned inputs, a successful scan returns exactly the
trade of the first pair — in the ascending `(i, j)`, `i < j`
lexicographic order — whose per-pair outcome qualifies; every
lexicographically earlier in-range pair contributes nothing, and no
ranking across pairs occurs.  (The return type carries exactly one
`TradeResult`, so a successful scan yields exactly one direction/amount
result.) -/
theorem claim_C7 (args : TryArbitrageArgs) (h : valid_lengths args)
    (trade : TradeResult) :
    try_arbitrage args = .ok trade ↔
      ∃ i j : Nat, i < j ∧ j < args.mints.length ∧
        pair_step args i j = some trade ∧
        ∀ i' j' : Nat, i' < j' → j' < args.mints.length →
          (i' < i ∨ (i' = i ∧ j' < j)) → pair_step args i' j' = none := by
  rw [try_arbitrage_eq args h]
  have hm : (match scan_spec args with
      | some trade => (.ok trade : Except ArbitrageProgramError TradeResult)
      | none => .error .NoArbitrage) = .ok trade ↔
      scan_spec args = some trade := by
    cases hs : scan_spec args
    · simp
    · simp
  rw [hm, scan_spec_eq_some_iff]

/-- A concrete two-asset input matching the spec's end-to-end scenario:
pool 1 reserves `[1000, 1000]`, pool 2 reserves `[1000, 500]`, the user
pays 100 of asset 0, zero decimals, temperature 50.  Quotes are 90
and 45, percent difference 100 > threshold 50, giving a buy on pool 1
(the higher quote) of the user's 100 and a sell of the received 90. -/
def scanArgsB : TryArbitrageArgs := ⟨[100, 100], [1000, 1000], [1000, 500], [0, 0], 50⟩

/-- Witness for C7 at `scanArgsB`: the first (and only) pair `(0, 1)`
qualifies and the scan returns exactly its trade. -/
theorem claim_C7_witness :
    valid_lengths scanArgsB ∧
    try_arbitrage scanArgsB = .ok ⟨0, 1, Buy.Swap1, 100, 90⟩ := by
  have hq1 : quote_1 scanArgsB 0 1 = 90 := by
    rw [show quote_1 scanArgsB 0 1 =
      convert_from_float (swap_receive_rat 1000 0 1000 0 100) 0 from rfl,
      convert_from_swap_rat_zero]
    decide
  have hq2 : quote_2 scanArgsB 0 1 = 45 := by
    rw [show quote_2 scanArgsB 0 1 =
      convert_from_float (swap_receive_rat 500 0 1000 0 100) 0 from rfl,
      convert_from_swap_rat_zero]
    decide
  have hpd : percent_diff 90 45 = 100 := by
    rw [percent_diff_of_le 90 45 (by norm_num) (by norm_num)]
    norm_num
  have hcheck : check_for_arbitrage 90 45 scanArgsB.temperature = some Buy.Swap1 := by
    show check_for_arbitrage 90 45 50 = some Buy.Swap1
    simp only [check_for_arbitrage, hpd]
    rw [if_pos (by norm_num), if_pos (by norm_num)]
  have hstep : pair_step scanArgsB 0 1 = some ⟨0, 1, Buy.Swap1, 100, 90⟩ := by
    unfold pair_step
    rw [hq1, hq2, if_neg (by decide), hcheck]
    rfl
  have hv : valid_lengths scanArgsB := by decide
  refine ⟨hv, (claim_C7 scanArgsB hv ⟨0, 1, Buy.Swap1, 100, 90⟩).mpr ?_⟩
  refine ⟨0, 1, by norm_num,
    by rw [show scanArgsB.mints.length = 2 from rfl]; norm_num, hstep, ?_⟩
  intro i' j' hij' hj'n hlex
  rcases hlex with hlt | ⟨heq, hlt⟩
  · exact absurd hlt (Nat.not_lt_zero i')
  · rw [heq] at hij'
    exact absurd hij' (by omega)

/-- C4: if a fetched pair's quotes trip the skip-guard — either quote is
zero or exceeds the issuing pool's own reserve of the receive asset —
the scan's inner loop simply continues with the remaining pairs: the
pair is skipped, no error is surfaced and the scan does not abort. -/
theorem claim_C4 (args : TryArbitrageArgs)
    (i j user_i swap_1_i swap_2_i mint_i : Nat)
    (user_j swap_1_j swap_2_j mint_j r_swap_1 r_swap_2 : Nat) (rest : List Nat)
    (hu : args.token_accounts_user.get? j = some user_j)
    (h1 : args.token_accounts_swap_1.get? j = some swap_1_j)
    (h2 : args.token_accounts_swap_2.get? j = some swap_2_j)
    (hm : args.mints.get? j = some mint_j)
    (hr1 : determine_swap_receive swap_1_j mint_j swap_1_i mint_i user_i =
      .ok r_swap_1)
    (hr2 : determine_swap_receive swap_2_j mint_j swap_2_i mint_i user_i =
      .ok r_swap_2)
    (hguard : r_swap_1 = 0 ∨ r_swap_1 > swap_1_j ∨
      r_swap_2 = 0 ∨ r_swap_2 > swap_2_j) :
    innerLoop args i user_i swap_1_i swap_2_i mint_i (j :: rest) =
      innerLoop args i user_i swap_1_i swap_2_i mint_i rest := by
  rw [innerLoop, hu, h1, h2, hm]
  show (match pairTrade args.temperature i j user_i user_j swap_1_i swap_1_j
      swap_2_i swap_2_j mint_i mint_j with
    | Except.error e => Except.error e
    | Except.ok (some trade) => Except.ok (some trade)
    | Except.ok none =>
        innerLoop args i user_i swap_1_i swap_2_i mint_i rest) = _
  have hbody : pairTrade args.temperature i j user_i user_j swap_1_i swap_1_j
      swap_2_i swap_2_j mint_i mint_j = .ok none := by
    unfold pairTrade
    rw [hr1, hr2]
    show (if r_swap_1 = 0 ∨ r_swap_1 > swap_1_j ∨ r_swap_2 = 0 ∨
        r_swap_2 > swap_2_j then
      (Except.ok none : Except ArbitrageProgramError (Option TradeResult))
    else _) = _
    rw [if_pos hguard]
  rw [hbody]

/-- Witness for C4: on the `scanArgsA` inputs the pair `(0, 1)` has
quote `0` on pool 1, so the inner loop at `[1]` continues to the empty
tail and finishes with no trade and no error. -/
theorem claim_C4_witness :
    innerLoop ⟨[1, 1], [10, 1], [10, 11], [0, 0], 99⟩ 0 1 10 10 0 [1] =
      innerLoop ⟨[1, 1], [10, 1], [10, 11], [0, 0], 99⟩ 0 1 10 10 0 [] ∧
    innerLoop ⟨[1, 1], [10, 1], [10, 11], [0, 0], 99⟩ 0 1 10 10 0 [] =
      .ok none := by
  have hr1 : determine_swap_receive 1 0 10 0 1 = .ok 0 := by
    rw [determine_swap_receive_zero_decimals]
    decide
  have hr2 : determine_swap_receive 11 0 10 0 1 = .ok 1 := by
    rw [determine_swap_receive_zero_decimals]
    decide
  exact ⟨claim_C4 ⟨[1, 1], [10, 1], [10, 11], [0, 0], 99⟩ 0 1 1 10 10 0 1 1 11 0
    0 1 [] rfl rfl rfl rfl hr1 hr2 (Or.inl rfl), rfl⟩
